import Mathlib

/-!
Verification of the rolling-metrics / hierarchy engine of the
valuation-radar repository.

The embedding translates the computation kernels of the source files

  * `src/app.py`                       (weekly animation radar, synthetic baskets)
  * `src/my_stock_pool.py`             (weekly animation radar, A/B/C pools)
  * `src/pages/0_宏观全景雷达.py`        (latest-date radar + 4-EMA trend scanner)
  * `src/pages/1_我的自选股池.py`        (latest-date radar + 4-EMA trend scanner)
  * `src/pages/2_宏观资金池.py`          (liquidity treemap animation)

into Lean.  Dates are integers (calendar day numbers, with day 0 a Monday so
that Fridays are the days congruent to 4 modulo 7); prices and macro levels
are rationals, giving the exact real-number semantics of the source
arithmetic.  A pandas `NaN` / missing cell is `Option.none`.
-/

set_option maxRecDepth 100000

namespace ValuationRadar

/-! ### Shared numeric helpers -/

/-- The last `n` elements of a list (`pandas .tail(n)`). -/
def lastN (n : ℕ) (l : List α) : List α := l.drop (l.length - n)

/-- Arithmetic mean of a list of rationals (`pandas .mean()`). -/
def mean (l : List ℚ) : ℚ := l.sum / (l.length : ℚ)

/-- Sum of squared deviations from the mean.  The pandas rolling standard
deviation is `Real.sqrt (ssd l / (l.length - 1))`, so for windows with at
least two points `std == 0` holds exactly when `ssd l = 0`. -/
def ssd (l : List ℚ) : ℚ := (l.map (fun x => (x - mean l) ^ 2)).sum

/-- Recursive exponential moving average, final value of
`series.ewm(span=span, adjust=False).mean()`:  `e 0 = x 0`,
`e t = α * x t + (1 - α) * e (t-1)` with `α = 2 / (span + 1)`. -/
def ema (span : ℕ) (l : List ℚ) : ℚ :=
  match l with
  | [] => 0
  | x :: xs => xs.foldl (fun acc y => (2 / (span + 1)) * y + (1 - 2 / (span + 1)) * acc) x

/-! ### Multi-horizon trend classification (pages 0 and 1)

`structureOf` is the `structure = ...` if/elif chain of `calculate_metrics`
in `src/pages/0_宏观全景雷达.py` (lines 125-138) and
`src/pages/1_我的自选股池.py` (lines 101-112), a function of the four signed
bias ratios (price vs EMA20, EMA20 vs EMA60, EMA60 vs EMA120,
EMA120 vs EMA200). -/

/-- The seven trend states of the scanner.  Constructor names follow the
spec's vocabulary; the source strings are `完美多头 (主升浪)`,
`完美空头 (主跌浪)`, `牛市回调`, `熊市反弹`, `长期看涨`, `长期看跌`,
`震荡/纠缠` in that order. -/
inductive TrendState where
  | strong_uptrend
  | strong_downtrend
  | bull_pullback
  | bear_bounce
  | long_term_bullish
  | long_term_bearish
  | choppy
deriving DecidableEq

/-- The trend-structure classifier: the source initialises
`structure = "震荡/纠缠"` and then runs
`if c_s > 0 and s_m > 0 and m_l > 0 and l_vl > 0: ... elif ...`. -/
def structureOf (c_s s_m m_l l_vl : ℚ) : TrendState :=
  if 0 < c_s ∧ 0 < s_m ∧ 0 < m_l ∧ 0 < l_vl then .strong_uptrend
  else if c_s < 0 ∧ s_m < 0 ∧ m_l < 0 ∧ l_vl < 0 then .strong_downtrend
  else if 0 < l_vl then (if c_s < 0 then .bull_pullback else .long_term_bullish)
  else if l_vl < 0 then (if 0 < c_s then .bear_bounce else .long_term_bearish)
  else .choppy

/-! ### Latest-date radar record (pages 0 and 1)

`radarMetrics` embeds the per-ticker body of `calculate_metrics` in pages 0
and 1.  The rolling standard deviation `std250` is an irrational square root
in general, so it is passed as a parameter; the claims under study only ask
whether it is zero, and `std250 = 0` holds exactly when the rational
variance of the trailing window is zero.  Divisions by an exactly-zero EMA
produce an IEEE infinity in the source (numpy floats) and `0` in `ℚ`; no
claim depends on a bias value at a zero EMA. -/

/-- Source line `z_score = (curr - ma250) / std250 if std250 != 0 else 0`
(page 0 line 103, page 1 line 79). -/
def radarZScore (curr ma250 std250 : ℚ) : ℚ :=
  if std250 ≠ 0 then (curr - ma250) / std250 else 0

/-- The fields of one row appended to `metrics` that the claims inspect. -/
structure RadarRec where
  z : ℚ
  rel : ℚ
  trend : TrendState
deriving DecidableEq

/-- Per-ticker body of `calculate_metrics` (pages 0 and 1): gate
`if len(df_t) < 250: continue`, then Z-score, 20-day momentum relative to
the benchmark, the four EMA bias ratios and the trend structure, appended
unconditionally as one record. -/
def radarMetrics (prices : List ℚ) (std250 : ℚ) (benchMom : ℚ) : Option RadarRec :=
  if prices.length < 250 then none else
  let curr := prices.getLast?.getD 0
  let ma250 := mean (lastN 250 prices)
  let absMom := (curr / ((lastN 21 prices).headD 0) - 1) * 100
  let e20 := ema 20 prices
  let e60 := ema 60 prices
  let e120 := ema 120 prices
  let e200 := ema 200 prices
  let c_s := (curr - e20) / e20 * 100
  let s_m := (e20 - e60) / e60 * 100
  let m_l := (e60 - e120) / e120 * 100
  let l_vl := (e120 - e200) / e200 * 100
  some { z := radarZScore curr ma250 std250
         rel := absMom - benchMom
         trend := structureOf c_s s_m m_l l_vl }

/-! ### Weekly animation pipeline (`src/app.py`, `src/my_stock_pool.py`)

A price series is a list of `(date, price)` pairs: the `Close` column after
`dropna()`, so dates are strictly increasing where the source guarantees it.
`rolling_window = 252`, the momentum lookback is `timedelta(weeks=4)` = 28
days, the display window is `timedelta(days=365)` before `end_date`
(`datetime.now()`), which enters as the explicit `now` parameter. -/

/-- The smallest Friday (day ≡ 4 mod 7) at or after `d`: the label pandas
`resample('W-FRI')` assigns to the bin containing `d`. -/
def nextFriday (d : ℤ) : ℤ := d + (4 - d) % 7

/-- The index of `price_weekly = series_price.resample('W-FRI').last()`:
all weekly Friday labels from the bin of the first observation to the bin
of the last. -/
def weeklyLabels : List (ℤ × ℚ) → List ℤ
  | [] => []
  | p :: rest =>
      (List.range ((nextFriday ((p :: rest).getLastD p).1 - nextFriday p.1) / 7 + 1).toNat).map
        (fun (k : ℕ) => nextFriday p.1 + 7 * (k : ℤ))

/-- Source line `display_dates = price_weekly[price_weekly.index >= target_start_date].index`
with `target_start_date = end_date - timedelta(days=365)`. -/
def displayDates (s : List (ℤ × ℚ)) (now : ℤ) : List ℤ :=
  (weeklyLabels s).filter (fun f => decide (now - 365 ≤ f))

/-- Lookup `price_weekly.loc[date]`: the last observation in the weekly bin
`(date - 7, date]`, `none` when the bin is empty (a pandas `NaN`). -/
def weeklyLast (s : List (ℤ × ℚ)) (d : ℤ) : Option ℚ :=
  ((s.filter (fun p => decide (d - 7 < p.1 ∧ p.1 ≤ d))).getLast?).map (fun p => p.2)

/-- Source line `window_price = series_price.loc[:date].tail(rolling_window)`. -/
def windowPrices (s : List (ℤ × ℚ)) (d : ℤ) : List ℚ :=
  lastN 252 ((s.filter (fun p => decide (p.1 ≤ d))).map (fun p => p.2))

/-- Source line `idx = series_price.index.searchsorted(lookback_date)` with
`lookback_date = date - timedelta(weeks=4)`: numpy `searchsorted` with the
default `side='left'` returns, for a sorted index, the number of index
entries strictly below the target. -/
def lookbackIdx (s : List (ℤ × ℚ)) (d : ℤ) : ℕ :=
  s.countP (fun p => decide (p.1 < d - 28))

/-- The observation date the momentum lookback resolves to:
`series_price.index[idx]` when `idx < len(series_price)`, else unresolved. -/
def resolveLookback (s : List (ℤ × ℚ)) (d : ℤ) : Option ℤ :=
  (s[lookbackIdx s d]?).map (fun p => p.1)

/-- Source line `price_prev = series_price.iloc[idx]` for the same index, when defined. -/
def prevPrice (s : List (ℤ × ℚ)) (d : ℤ) : Option ℚ :=
  (s[lookbackIdx s d]?).map (fun p => p.2)

/-- The momentum block:
`momentum = ((price_val - price_prev) / price_prev) * 100 if price_prev > 0
else 0` when the index is in range, `momentum = 0` otherwise.  `priceVal` is
the weekly price at the reference date (`none` = `NaN`, which propagates
through the formula but compares false in `price_prev > 0`). -/
def momentumAt (s : List (ℤ × ℚ)) (d : ℤ) (priceVal : Option ℚ) : Option ℚ :=
  match prevPrice s d with
  | some pp => if 0 < pp then priceVal.map (fun pv => (pv - pp) / pp * 100) else some 0
  | none => some 0

/-- One appended row of `processed_dfs`, restricted to the fields the claims
inspect (`Date`, `Price`, `Momentum`).  The Z-score magnitude is a real
square root and is only ever gated on being zero, which the `ssd` gate in
`processDate` captures; the display rounding `round(., 2)` is omitted. -/
structure WeeklyRec where
  date : ℤ
  price : Option ℚ
  momentum : Option ℚ
deriving DecidableEq

/-- The body of `for date in display_dates:` in `get_market_data`
(`src/app.py` lines 134-168, `src/my_stock_pool.py` lines 72-100):
skip when `len(window_price) < rolling_window * 0.9`; skip when
`p_std == 0` (equivalently, when the sum of squared deviations of the
window is zero); otherwise append exactly one record for the date. -/
def processDate (s : List (ℤ × ℚ)) (d : ℤ) : Option WeeklyRec :=
  let w := windowPrices s d
  if (w.length : ℚ) < 252 * (9 / 10) then none
  else if ssd w = 0 then none
  else some { date := d, price := weeklyLast s d, momentum := momentumAt s d (weeklyLast s d) }

/-- The per-ticker loop of `get_market_data`: the whole ticker is skipped when
`len(series) < rolling_window + 20`, otherwise each display date is
processed independently. -/
def processTicker (s : List (ℤ × ℚ)) (now : ℤ) : List WeeklyRec :=
  if s.length < 252 + 20 then [] else (displayDates s now).filterMap (processDate s)

/-! ### Category labelling (`src/my_stock_pool.py` lines 14-33)

`PORTFOLIO_CONFIG` is the source dictionary; Python 3 dictionaries preserve
insertion order, so `reversed(PORTFOLIO_CONFIG.items())` visits C, then B,
then A. -/

/-- The `"A (防守)"` pool. -/
def groupA : List String :=
  ["GLD", "WMT", "TJX", "RSG", "LLY", "COST", "KO", "V", "BRK-B", "ISRG", "LMT", "WM", "JNJ", "LIN"]

/-- The `"B (核心)"` pool. -/
def groupB : List String :=
  ["COST", "GOOGL", "MSFT", "AMZN", "PWR", "CACI", "AAPL", "MNST", "LLY", "XOM", "CVX", "WM"]

/-- The `"C (时代之王)"` pool. -/
def groupC : List String :=
  ["TSLA", "VRT", "NVDA", "PLTR", "NOC", "XAR", "XLP", "MS", "GS", "LMT", "ANET", "ETN", "BTC-USD", "GOLD"]

/-- The `PORTFOLIO_CONFIG` dictionary, in insertion order. -/
def PORTFOLIO_CONFIG : List (String × List String) :=
  [("A (防守)", groupA), ("B (核心)", groupB), ("C (时代之王)", groupC)]

/-- Source expression `section.split(" ")[0]`: the prefix of the key before the first space
(identical to the first component of the split for any string). -/
def firstWord (s : String) : String := ⟨s.data.takeWhile (fun c => c != ' ')⟩

/-- Function `get_category_label`: iterate `reversed(PORTFOLIO_CONFIG.items())` (so
priority C > B > A), return the first word of the first section containing
the ticker, else `"Other"`. -/
def get_category_label (t : String) : String :=
  match PORTFOLIO_CONFIG.reverse.find? (fun p => p.2.contains t) with
  | some p => firstWord p.1
  | none => "Other"

/-- Function `get_unique_tickers`: the concatenation of all pools, deduplicated
(`list(set(all_tickers))`; the set's iteration order is irrelevant to the
claims, which only concern which tickers occur and that none repeats). -/
def get_unique_tickers : List String :=
  ((PORTFOLIO_CONFIG.map (fun p => p.2)).flatten).dedup

/-! ### Liquidity treemap (`src/pages/2_宏观资金池.py` lines 84-135)

The frame loop reads, for each weekly-sampled row of the aligned macro
table, the columns below; a missing column or a `NaN` cell is `none`. -/

/-- The columns of one sampled row that the treemap loop reads.
`latest_row = df.iloc[-1]` is a second value of the same shape. -/
structure MacroRow where
  m0 : Option ℚ
  m1 : Option ℚ
  m2 : Option ℚ
  fed : Option ℚ
  tga : Option ℚ
  rrp : Option ℚ
  spy : Option ℚ
  tlt : Option ℚ
  gld : Option ℚ
  btc : Option ℚ
  uso : Option ℚ
deriving DecidableEq

/-- Source line `def get_val(col): return float(row.get(col, 0)) if not pd.isna(row.get(col)) else 0.0`:
a missing column or `NaN` cell becomes `0`. -/
def get_val (x : Option ℚ) : ℚ := x.getD 0

/-- Source function `def get_asset_size(col)`: anchored-proxy scaling
`base * (curr / last) if last != 0 else base`, with `last` defaulting to 1
for a missing column (`latest_row.get(col, 1)`). -/
def get_asset_size (base : ℚ) (curr last : Option ℚ) : ℚ :=
  let c := get_val curr
  let l := last.getD 1
  if l ≠ 0 then base * (c / l) else base

/-- The 16 node ids of the fixed treemap schema, as an enumeration; the
Plotly id strings are recovered by `idString`. -/
inductive NodeId where
  | root | cat_source | cat_valve | cat_asset
  | m0 | fed | m2 | m1 | m2_other | tga | rrp
  | spy | tlt | gld | btc | uso
deriving DecidableEq

/-- The Plotly id string of each node (the `ids` entries of the source). -/
def idString : NodeId → String
  | .root => "root" | .cat_source => "cat_source" | .cat_valve => "cat_valve"
  | .cat_asset => "cat_asset" | .m0 => "m0" | .fed => "fed" | .m2 => "m2"
  | .m1 => "m1" | .m2_other => "m2_other" | .tga => "tga" | .rrp => "rrp"
  | .spy => "spy" | .tlt => "tlt" | .gld => "gld" | .btc => "btc" | .uso => "uso"

/-- The nodes in the order of the source's `ids` list. -/
def allNodes : List NodeId :=
  [.root, .cat_source, .cat_valve, .cat_asset, .m0, .fed, .m2, .m1, .m2_other,
   .tga, .rrp, .spy, .tlt, .gld, .btc, .uso]

/-- The `ids` list of the source, literally. -/
def treemapIds : List String := allNodes.map idString

/-- The `parents` list of the source as a lookup (root's parent is `""`,
modelled as `none`). -/
def parentOf : NodeId → Option NodeId
  | .root => none
  | .cat_source => some .root | .cat_valve => some .root | .cat_asset => some .root
  | .m0 => some .cat_source | .fed => some .cat_source | .m2 => some .cat_source
  | .m1 => some .m2 | .m2_other => some .m2
  | .tga => some .cat_valve | .rrp => some .cat_valve
  | .spy => some .cat_asset | .tlt => some .cat_asset | .gld => some .cat_asset
  | .btc => some .cat_asset | .uso => some .cat_asset

/-- Direct children of a node under the fixed ids/parents tree. -/
def childIds (i : NodeId) : List NodeId :=
  allNodes.filter (fun j => parentOf j == some i)

/-- All 16 node values of one animation frame, computed exactly as the
`vals` dictionary of the frame loop (page 2 lines 104-120):
`m2_other = max(0, m2 - m1)`, then `m2` is reassigned `m1 + m2_other`;
`tga`/`rrp` are absolute values; the five asset leaves use anchored-proxy
scaling with the hard-coded `LATEST_CAPS`; category values are the sums of
their children and `root` the sum of the categories. -/
structure FrameVals where
  m0 : ℚ
  m1 : ℚ
  m2 : ℚ
  fed : ℚ
  m2_other : ℚ
  tga : ℚ
  rrp : ℚ
  spy : ℚ
  tlt : ℚ
  gld : ℚ
  btc : ℚ
  uso : ℚ
  cat_source : ℚ
  cat_valve : ℚ
  cat_asset : ℚ
  root : ℚ

/-- The body of `for date in df_weekly.index:` building `vals`. -/
def buildVals (latest row : MacroRow) : FrameVals :=
  let m0 := get_val row.m0
  let m1 := get_val row.m1
  let m2raw := get_val row.m2        -- vals['m2'] before the reassignment
  let fed := get_val row.fed
  let m2_other := max 0 (m2raw - m1)
  let m2 := m1 + m2_other            -- vals['m2'] = vals['m1'] + vals['m2_other']
  let tga := |get_val row.tga|
  let rrp := |get_val row.rrp|
  let spy := get_asset_size 55000 row.spy latest.spy
  let tlt := get_asset_size 52000 row.tlt latest.tlt
  let gld := get_asset_size 14000 row.gld latest.gld
  let btc := get_asset_size 2500 row.btc latest.btc
  let uso := get_asset_size 2000 row.uso latest.uso
  let cat_source := m0 + fed + m2
  let cat_valve := tga + rrp
  let cat_asset := spy + tlt + gld + btc + uso
  let root := cat_source + cat_valve + cat_asset
  { m0, m1, m2, fed, m2_other, tga, rrp, spy, tlt, gld, btc, uso,
    cat_source, cat_valve, cat_asset, root }

/-- The value a frame assigns to a node id (the `final_values` entry paired
with that id). -/
def nodeValue (latest row : MacroRow) : NodeId → ℚ
  | .root => (buildVals latest row).root
  | .cat_source => (buildVals latest row).cat_source
  | .cat_valve => (buildVals latest row).cat_valve
  | .cat_asset => (buildVals latest row).cat_asset
  | .m0 => (buildVals latest row).m0
  | .fed => (buildVals latest row).fed
  | .m2 => (buildVals latest row).m2
  | .m1 => (buildVals latest row).m1
  | .m2_other => (buildVals latest row).m2_other
  | .tga => (buildVals latest row).tga
  | .rrp => (buildVals latest row).rrp
  | .spy => (buildVals latest row).spy
  | .tlt => (buildVals latest row).tlt
  | .gld => (buildVals latest row).gld
  | .btc => (buildVals latest row).btc
  | .uso => (buildVals latest row).uso

/-- One `go.Frame`'s treemap data, as the pairing of the constant `ids` list
with that frame's `final_values`. -/
def frameFor (latest row : MacroRow) : List (String × ℚ) :=
  allNodes.map (fun i => (idString i, nodeValue latest row i))

/-- The `frames` list: one frame per sampled weekly row, all sharing
`latest_row`. -/
def mkFrames (latest : MacroRow) (rows : List MacroRow) : List (List (String × ℚ)) :=
  rows.map (frameFor latest)

/-! ### Concrete sample data used by counterexamples and witnesses -/

/-- 272 daily observations (days 0-271) of a perfectly flat price series. -/
def flatSeries : List (ℤ × ℚ) := (List.range 272).map (fun i => ((i : ℤ), 100))

/-- 272 daily observations of a strictly rising price series. -/
def risingSeries : List (ℤ × ℚ) := (List.range 272).map (fun i => ((i : ℤ), 100 + (i : ℚ)))

/-- 240 daily observations of a strictly rising price series: enough history
for the 0.9-window threshold at its later dates, but below the
`rolling_window + 20` entity gate. -/
def shortSeries : List (ℤ × ℚ) := (List.range 240).map (fun i => ((i : ℤ), 100 + (i : ℚ)))

/-- Two observations 100 days apart: a reporting gap longer than the 4-week
momentum lookback. -/
def gapSeries : List (ℤ × ℚ) := [((0 : ℤ), (10 : ℚ)), (100, 11)]

/-- A three-observation series used as a lookback witness. -/
def triSeries : List (ℤ × ℚ) := [((0 : ℤ), (2 : ℚ)), (20, 11), (40, 3)]

/-- A series whose price doubles from the 4-week lookback observation to
the reference date. -/
def doublingSeries : List (ℤ × ℚ) := [((0 : ℤ), (50 : ℚ)), (12, 100), (40, 200)]

/-- A macro row with every column missing. -/
def emptyRow : MacroRow :=
  ⟨none, none, none, none, none, none, none, none, none, none, none⟩

/-- A macro row on which the raw M1 exceeds the raw M2 and both are
negative. -/
def negRow : MacroRow :=
  { emptyRow with m1 := some (-1), m2 := some (-2) }

/-! ### Helper lemmas -/

/-- A list of nonnegative rationals with zero sum is all zeros. -/
theorem all_zero_of_sum_zero {l : List ℚ} (h0 : ∀ x ∈ l, 0 ≤ x) (hs : l.sum = 0) :
    ∀ x ∈ l, x = 0 := by
  induction l with
  | nil => simp
  | cons a as ih =>
    simp only [List.sum_cons] at hs
    have ha : 0 ≤ a := h0 a (by simp)
    have has : 0 ≤ as.sum := List.sum_nonneg (fun x hx => h0 x (by simp [hx]))
    have ha0 : a = 0 := by linarith
    have hs0 : as.sum = 0 := by linarith
    intro x hx
    rcases List.mem_cons.mp hx with h | h
    · exact h ▸ ha0
    · exact ih (fun y hy => h0 y (by simp [hy])) hs0 x h

/-- A constant list sums to length times the constant. -/
theorem sum_of_const {l : List ℚ} {c : ℚ} (h : ∀ x ∈ l, x = c) :
    l.sum = (l.length : ℚ) * c := by
  induction l with
  | nil => simp
  | cons a as ih =>
    have ha : a = c := h a (by simp)
    have : as.sum = (as.length : ℚ) * c := ih (fun y hy => h y (by simp [hy]))
    simp [ha, this]
    ring

/-- The sum of squared deviations of a constant window is zero (a flat
window has zero rolling standard deviation). -/
theorem ssd_of_const {l : List ℚ} {c : ℚ} (h : ∀ x ∈ l, x = c) : ssd l = 0 := by
  rcases l with - | ⟨a, as⟩
  · simp [ssd]
  · have hm : mean (a :: as) = c := by
      have hlen : ((a :: as).length : ℚ) ≠ 0 := Nat.cast_ne_zero.mpr (by simp)
      rw [mean, sum_of_const h, mul_comm, mul_div_assoc, div_self hlen, mul_one]
    apply List.sum_eq_zero
    intro x hx
    rcases List.mem_map.mp hx with ⟨y, hy, rfl⟩
    rw [h y hy, hm]
    ring

/-- A window containing two different values has a nonzero sum of squared
deviations (a non-flat window has nonzero rolling standard deviation). -/
theorem ssd_ne_zero_of_two {l : List ℚ} {a b : ℚ} (haℓ : a ∈ l) (hbℓ : b ∈ l)
    (hab : a ≠ b) : ssd l ≠ 0 := by
  intro h
  have h0 : ∀ x ∈ l.map (fun x => (x - mean l) ^ 2), 0 ≤ x := by
    intro x hx
    rcases List.mem_map.mp hx with ⟨y, -, rfl⟩
    positivity
  have hz := all_zero_of_sum_zero h0 h
  have hza : (a - mean l) ^ 2 = 0 := hz _ (List.mem_map.mpr ⟨a, haℓ, rfl⟩)
  have hzb : (b - mean l) ^ 2 = 0 := hz _ (List.mem_map.mpr ⟨b, hbℓ, rfl⟩)
  have : a = mean l := by
    have := pow_eq_zero_iff (n := 2) (by norm_num) |>.mp hza
    linarith [sub_eq_zero.mp this]
  have hb : b = mean l := by
    have := pow_eq_zero_iff (n := 2) (by norm_num) |>.mp hzb
    linarith [sub_eq_zero.mp this]
  exact hab (by rw [this, hb])

/-- Every element of a rolling window is an element of the price column. -/
theorem mem_of_mem_windowPrices {s : List (ℤ × ℚ)} {d : ℤ} {x : ℚ}
    (hx : x ∈ windowPrices s d) : ∃ p ∈ s, p.2 = x := by
  have hx2 : x ∈ (s.filter (fun p => decide (p.1 ≤ d))).map (fun p => p.2) :=
    List.mem_of_mem_drop hx
  rcases List.mem_map.mp hx2 with ⟨p, hp, rfl⟩
  exact ⟨p, (List.mem_filter.mp hp).1, rfl⟩

/-- Windows of a constant-price series are constant. -/
theorem windowPrices_const {s : List (ℤ × ℚ)} {c : ℚ} (h : ∀ p ∈ s, p.2 = c) (d : ℤ) :
    ∀ x ∈ windowPrices s d, x = c := by
  intro x hx
  rcases mem_of_mem_windowPrices hx with ⟨p, hp, rfl⟩
  exact h p hp

/-- Every price of `flatSeries` is `100`. -/
theorem flatSeries_const : ∀ p ∈ flatSeries, p.2 = (100 : ℚ) := by
  intro p hp
  rcases List.mem_map.mp hp with ⟨i, -, rfl⟩
  rfl

/-- A record produced for a date carries that date. -/
theorem processDate_date {s : List (ℤ × ℚ)} {d : ℤ} {r : WeeklyRec}
    (h : processDate s d = some r) : r.date = d := by
  simp only [processDate] at h
  split_ifs at h with h1 h2
  simp only [Option.some.injEq] at h
  rw [← h]

/-- A record produced for a date means both per-date gates passed, and fixes
the record's fields. -/
theorem processDate_some {s : List (ℤ × ℚ)} {d : ℤ} {r : WeeklyRec}
    (h : processDate s d = some r) :
    ¬ ((windowPrices s d).length : ℚ) < 252 * (9 / 10) ∧ ssd (windowPrices s d) ≠ 0 ∧
      r = { date := d, price := weeklyLast s d, momentum := momentumAt s d (weeklyLast s d) } := by
  simp only [processDate] at h
  split_ifs at h with h1 h2
  simp only [Option.some.injEq] at h
  exact ⟨h1, h2, h.symm⟩

/-- A constant-price window never produces a record: either the minimum
history gate or the zero-standard-deviation gate skips the date. -/
theorem processDate_none_of_const {s : List (ℤ × ℚ)} {c : ℚ} {d : ℤ}
    (h : ∀ x ∈ windowPrices s d, x = c) : processDate s d = none := by
  simp only [processDate]
  split_ifs with h1 h2
  · rfl
  · rfl
  · exact absurd (ssd_of_const h) h2

/-- The weekly label grid never repeats a date. -/
theorem weeklyLabels_nodup (s : List (ℤ × ℚ)) : (weeklyLabels s).Nodup := by
  rcases s with - | ⟨p, rest⟩
  · exact List.nodup_nil
  · refine List.Nodup.map ?_ (List.nodup_range _)
    intro x y hxy
    simp only at hxy
    omega

/-- The sampled display dates never repeat. -/
theorem displayDates_nodup (s : List (ℤ × ℚ)) (now : ℤ) : (displayDates s now).Nodup :=
  (weeklyLabels_nodup s).filter _

/-- On a duplicate-free list of sample dates, a per-date `Option`-valued
producer whose records carry their date yields exactly one record for a
sampled date whose production succeeds, and none otherwise. -/
theorem countP_filterMap_date (g : ℤ → Option WeeklyRec)
    (hg : ∀ x r, g x = some r → r.date = x) :
    ∀ (l : List ℤ), l.Nodup → ∀ d : ℤ,
      (l.filterMap g).countP (fun r => r.date == d) =
        if d ∈ l ∧ (g d).isSome then 1 else 0 := by
  intro l
  induction l with
  | nil => intro _ d; simp
  | cons a as ih =>
    intro hnd d
    have hna : a ∉ as := (List.nodup_cons.mp hnd).1
    have has : as.Nodup := (List.nodup_cons.mp hnd).2
    rcases hga : g a with - | r
    · rw [List.filterMap_cons_none hga, ih has d]
      by_cases hda : d = a
      · subst hda
        have hmem : ¬ (d ∈ as) := hna
        simp [hga, hmem]
      · simp [List.mem_cons, hda]
    · rw [List.filterMap_cons_some hga, List.countP_cons]
      have hra : r.date = a := hg a r hga
      by_cases hda : d = a
      · subst hda
        have hmem : ¬ (d ∈ as) := hna
        have h0 : (as.filterMap g).countP (fun r => r.date == d) = 0 := by
          rw [ih has d]
          simp [hmem]
        simp [h0, hra, hga]
      · have hbeq : (r.date == d) = false := by
          rw [hra]
          exact beq_eq_false_iff_ne.mpr (fun h => hda h.symm)
        rw [ih has d, hbeq]
        simp [List.mem_cons, hda]

/-- Behaviour of `searchsorted` (side `left`) on a strictly sorted date index: when the
returned position is in range, it holds the earliest index entry at or
after the target, i.e. the minimum of the entries `≥ t`. -/
theorem searchsorted_first_ge {l : List ℤ} (hs : l.Pairwise (· < ·)) (t : ℤ) :
    ∀ x : ℤ, l[l.countP (fun v => decide (v < t))]? = some x →
      t ≤ x ∧ x ∈ l ∧ ∀ y ∈ l, t ≤ y → x ≤ y := by
  induction l with
  | nil => intro x hx; simp at hx
  | cons a as ih =>
    intro x hx
    have ha : ∀ y ∈ as, a < y := (List.pairwise_cons.mp hs).1
    have has : as.Pairwise (· < ·) := (List.pairwise_cons.mp hs).2
    by_cases hat : t ≤ a
    · have hcz : (a :: as).countP (fun v => decide (v < t)) = 0 := by
        rw [List.countP_eq_zero]
        intro y hy
        rcases List.mem_cons.mp hy with rfl | hy2
        · simpa using not_lt.mpr hat
        · simpa using not_lt.mpr (le_trans hat (le_of_lt (ha y hy2)))
      rw [hcz] at hx
      simp only [List.getElem?_cons_zero, Option.some.injEq] at hx
      subst hx
      refine ⟨hat, List.mem_cons_self a as, ?_⟩
      intro y hy hty
      rcases List.mem_cons.mp hy with rfl | hy2
      · exact le_refl _
      · exact le_of_lt (ha y hy2)
    · have hcs : (a :: as).countP (fun v => decide (v < t)) =
          as.countP (fun v => decide (v < t)) + 1 := by
        rw [List.countP_cons]
        simp [not_le.mp hat]
      rw [hcs] at hx
      simp only [List.getElem?_cons_succ] at hx
      obtain ⟨htx, hxmem, hmin⟩ := ih has x hx
      refine ⟨htx, List.mem_cons_of_mem a hxmem, ?_⟩
      intro y hy hty
      rcases List.mem_cons.mp hy with rfl | hy2
      · exact absurd hty hat
      · exact hmin y hy2 hty

/-- The lookback resolution, restated over the bare date index. -/
theorem resolveLookback_eq_dates (s : List (ℤ × ℚ)) (d : ℤ) :
    resolveLookback s d =
      (s.map Prod.fst)[(s.map Prod.fst).countP (fun v => decide (v < d - 28))]? := by
  unfold resolveLookback lookbackIdx
  rw [List.countP_map, List.getElem?_map]
  rfl

/-- Identity `b + max 0 (a - b) = max a b`: reassigning `m2` to `m1 + m2_other`
replaces the raw M2 with the larger of the raw M2 and M1. -/
theorem add_max_zero_sub (a b : ℚ) : b + max 0 (a - b) = max a b := by
  rcases le_total a b with h | h
  · rw [max_eq_left (by linarith), max_eq_right h]
    ring
  · rw [max_eq_right (by linarith), max_eq_left h]
    ring

/-- Children of `root` under the fixed ids/parents lists. -/
theorem childIds_root : childIds .root = [.cat_source, .cat_valve, .cat_asset] := by decide

/-- Children of `cat_source`. -/
theorem childIds_cat_source : childIds .cat_source = [.m0, .fed, .m2] := by decide

/-- Children of `m2`. -/
theorem childIds_m2 : childIds .m2 = [.m1, .m2_other] := by decide

/-- Children of `cat_valve`. -/
theorem childIds_cat_valve : childIds .cat_valve = [.tga, .rrp] := by decide

/-- Children of `cat_asset`. -/
theorem childIds_cat_asset : childIds .cat_asset = [.spy, .tlt, .gld, .btc, .uso] := by decide

/-! ### The claims -/

/-- C1 (confirmed): in every animation frame built by the treemap snapshot
loop — i.e. for every latest row and every sampled row — every internal
node's value equals the sum of its direct children's values under the fixed
ids/parents tree: `root = cat_source + cat_valve + cat_asset`,
`cat_source = m0 + fed + m2`, `m2 = m1 + m2_other`, `cat_valve = tga + rrp`,
`cat_asset = spy + tlt + gld + btc + uso`.  The equality is exact in `ℚ`,
hence in particular within floating-point tolerance. -/
theorem conservation_invariant (latest row : MacroRow) :
    ∀ i ∈ [NodeId.root, .cat_source, .m2, .cat_valve, .cat_asset],
      nodeValue latest row i = ((childIds i).map (nodeValue latest row)).sum := by
  intro i hi
  fin_cases hi
  · rw [childIds_root]
    simp [nodeValue, buildVals]
    ring
  · rw [childIds_cat_source]
    simp [nodeValue, buildVals]
    ring
  · rw [childIds_m2]
    simp [nodeValue, buildVals]
  · rw [childIds_cat_valve]
    simp [nodeValue, buildVals]
  · rw [childIds_cat_asset]
    simp [nodeValue, buildVals]
    ring

/-- Witness for C1 at a concrete input: the conservation identity for the
root node on the all-missing row. -/
theorem conservation_invariant_witness :
    nodeValue emptyRow emptyRow .root =
      ((childIds .root).map (nodeValue emptyRow emptyRow)).sum :=
  conservation_invariant emptyRow emptyRow .root (by decide)

/-- C4 (confirmed): the trend-state classification is a total function of
the four signed bias ratios: all four positive gives the strong uptrend;
all four negative the strong downtrend; positive long-term bias with
negative short-term bias the bull pullback; negative long-term bias with
positive short-term bias the bear bounce; in the remaining cases one of
long-term-bullish, long-term-bearish or choppy; and an exactly-zero
short-term bias resolves to the non-negative branch (long-term-bullish,
not bull-pullback). -/
theorem trend_state_total (c_s s_m m_l l_vl : ℚ) :
    ((0 < c_s ∧ 0 < s_m ∧ 0 < m_l ∧ 0 < l_vl) →
        structureOf c_s s_m m_l l_vl = .strong_uptrend) ∧
    ((c_s < 0 ∧ s_m < 0 ∧ m_l < 0 ∧ l_vl < 0) →
        structureOf c_s s_m m_l l_vl = .strong_downtrend) ∧
    ((0 < l_vl ∧ c_s < 0) → structureOf c_s s_m m_l l_vl = .bull_pullback) ∧
    ((l_vl < 0 ∧ 0 < c_s) → structureOf c_s s_m m_l l_vl = .bear_bounce) ∧
    ((0 < l_vl ∧ c_s = 0) → structureOf c_s s_m m_l l_vl = .long_term_bullish) ∧
    ((¬ (0 < c_s ∧ 0 < s_m ∧ 0 < m_l ∧ 0 < l_vl) ∧
      ¬ (c_s < 0 ∧ s_m < 0 ∧ m_l < 0 ∧ l_vl < 0) ∧
      ¬ (0 < l_vl ∧ c_s < 0) ∧ ¬ (l_vl < 0 ∧ 0 < c_s)) →
        structureOf c_s s_m m_l l_vl = .long_term_bullish ∨
        structureOf c_s s_m m_l l_vl = .long_term_bearish ∨
        structureOf c_s s_m m_l l_vl = .choppy) := by
  refine ⟨?_, ?_, ?_, ?_, ?_, ?_⟩
  · rintro ⟨h1, h2, h3, h4⟩
    rw [structureOf, if_pos ⟨h1, h2, h3, h4⟩]
  · rintro ⟨h1, h2, h3, h4⟩
    rw [structureOf, if_neg (by rintro ⟨hc, -, -, -⟩; linarith), if_pos ⟨h1, h2, h3, h4⟩]
  · rintro ⟨hl, hc⟩
    rw [structureOf, if_neg (by rintro ⟨h, -, -, -⟩; linarith),
      if_neg (by rintro ⟨-, -, -, h⟩; linarith), if_pos hl, if_pos hc]
  · rintro ⟨hl, hc⟩
    rw [structureOf, if_neg (by rintro ⟨-, -, -, h⟩; linarith),
      if_neg (by rintro ⟨h, -, -, -⟩; linarith), if_neg (by intro h; linarith),
      if_pos hl, if_pos hc]
  · rintro ⟨hl, hc⟩
    rw [structureOf, if_neg (by rintro ⟨h, -, -, -⟩; linarith),
      if_neg (by rintro ⟨h, -, -, -⟩; linarith), if_pos hl, if_neg (by rw [hc]; exact lt_irrefl 0)]
  · rintro ⟨h1, h2, h3, h4⟩
    rw [structureOf, if_neg h1, if_neg h2]
    by_cases hl : 0 < l_vl
    · rw [if_pos hl, if_neg (fun hc => h3 ⟨hl, hc⟩)]
      exact Or.inl rfl
    · rw [if_neg hl]
      by_cases hl2 : l_vl < 0
      · rw [if_pos hl2, if_neg (fun hc => h4 ⟨hl2, hc⟩)]
        exact Or.inr (Or.inl rfl)
      · rw [if_neg hl2]
        exact Or.inr (Or.inr rfl)

/-- Witness for C4: concrete classifications in the strong-uptrend, the
bull-pullback and the zero-tie cases. -/
theorem trend_state_total_witness :
    structureOf 1 1 1 1 = .strong_uptrend ∧
    structureOf (-1) 2 2 1 = .bull_pullback ∧
    structureOf 0 2 2 1 = .long_term_bullish :=
  ⟨(trend_state_total 1 1 1 1).1 (by norm_num),
   (trend_state_total (-1) 2 2 1).2.2.1 (by norm_num),
   (trend_state_total 0 2 2 1).2.2.2.2.1 (by norm_num)⟩

/-- C5 (confirmed): every frame of a built snapshot series carries exactly
the same node-id list (the fixed schema), so no node id appears in one
frame and not in another; and an entity whose data is missing at a date
still appears as a node, with value `0` for a macro leaf and value `0` or
its anchor fallback for an asset leaf. -/
theorem frame_schema_stable (latest : MacroRow) (rows : List MacroRow) :
    (∀ f ∈ mkFrames latest rows, f.map Prod.fst = treemapIds) ∧
    (∀ row : MacroRow, row.m0 = none → nodeValue latest row .m0 = 0) ∧
    (∀ row : MacroRow, row.spy = none →
        nodeValue latest row .spy = 0 ∨ nodeValue latest row .spy = 55000) := by
  refine ⟨?_, ?_, ?_⟩
  · intro f hf
    rcases List.mem_map.mp hf with ⟨row, -, rfl⟩
    simp [frameFor, treemapIds, List.map_map, Function.comp]
  · intro row h
    simp [nodeValue, buildVals, get_val, h]
  · intro row h
    simp only [nodeValue, buildVals, get_asset_size, get_val, h, Option.getD_none]
    by_cases hl : latest.spy.getD 1 ≠ 0
    · left
      rw [if_pos hl]
      simp
    · right
      rw [if_neg hl]

/-- Witness for C5: the concrete one-frame series over the all-missing row
has the schema id list, and the missing leaves take value `0`. -/
theorem frame_schema_stable_witness :
    (frameFor emptyRow emptyRow).map Prod.fst = treemapIds ∧
    nodeValue emptyRow emptyRow .m0 = 0 :=
  ⟨(frame_schema_stable emptyRow [emptyRow]).1 (frameFor emptyRow emptyRow)
      (by simp [mkFrames]),
   (frame_schema_stable emptyRow [emptyRow]).2.1 emptyRow rfl⟩

/-- C10 (corrected), counterexample: the claim asserts every value in the
valve and M2 sub-trees is nonnegative even when the raw inputs are
negative; but the `m1` leaf (a child of the `m2` node) is the raw M1 value,
so a row with raw M1 = -1 and raw M2 = -2 gives the M2-subtree leaf `m1`
the negative value -1 (and the reassigned `m2` node the value -1 as well). -/
theorem m2_subtree_counterexample :
    parentOf .m1 = some .m2 ∧
    nodeValue emptyRow negRow .m1 < 0 ∧
    nodeValue emptyRow negRow .m2 < 0 := by
  refine ⟨rfl, ?_, ?_⟩
  · simp only [nodeValue, buildVals, negRow, emptyRow, get_val, Option.getD_some]
    norm_num
  · simp only [nodeValue, buildVals, negRow, emptyRow, get_val, Option.getD_some,
      Option.getD_none]
    norm_num

/-- C10 (corrected), amended claim: in every treemap frame `m2_other` is
`max(0, M2 - M1)` and hence nonnegative; the M2 node is reassigned
`m1 + m2_other`, so its displayed value is `max(raw M2, raw M1)` and
differs from the raw M2 whenever M1 exceeds M2; the TGA and RRP leaves are
absolute values, so every value of the valve sub-tree is nonnegative even
for negative raw inputs; and the remaining M2-subtree values `m1` and `m2`
are nonnegative whenever the raw M1 is (but not in general). -/
theorem m2_subtree_amended (latest row : MacroRow) :
    (buildVals latest row).m2_other = max 0 (get_val row.m2 - get_val row.m1) ∧
    0 ≤ (buildVals latest row).m2_other ∧
    (buildVals latest row).m2 = (buildVals latest row).m1 + (buildVals latest row).m2_other ∧
    (buildVals latest row).m2 = max (get_val row.m2) (get_val row.m1) ∧
    (get_val row.m2 < get_val row.m1 → (buildVals latest row).m2 ≠ get_val row.m2) ∧
    (buildVals latest row).tga = |get_val row.tga| ∧
    (buildVals latest row).rrp = |get_val row.rrp| ∧
    0 ≤ (buildVals latest row).tga ∧
    0 ≤ (buildVals latest row).rrp ∧
    0 ≤ (buildVals latest row).cat_valve ∧
    (0 ≤ get_val row.m1 →
      0 ≤ (buildVals latest row).m1 ∧ 0 ≤ (buildVals latest row).m2) := by
  have htga : 0 ≤ |get_val row.tga| := abs_nonneg _
  have hrrp : 0 ≤ |get_val row.rrp| := abs_nonneg _
  refine ⟨rfl, le_max_left 0 _, rfl, add_max_zero_sub _ _, ?_, rfl, rfl, htga, hrrp, ?_, ?_⟩
  · intro hlt
    show get_val row.m1 + max 0 (get_val row.m2 - get_val row.m1) ≠ get_val row.m2
    rw [add_max_zero_sub, max_eq_right (le_of_lt hlt)]
    exact fun h => absurd (h ▸ hlt) (lt_irrefl _)
  · simpa [buildVals] using add_nonneg htga hrrp
  · intro h1
    refine ⟨h1, ?_⟩
    show (0 : ℚ) ≤ get_val row.m1 + max 0 (get_val row.m2 - get_val row.m1)
    have := le_max_left (0 : ℚ) (get_val row.m2 - get_val row.m1)
    linarith

/-- Witness for C10's amended claim at a concrete input: on the
all-negative row the M2 node displays `max(raw M2, raw M1) = -1 ≠ -2`, and
the valve side is nonnegative. -/
theorem m2_subtree_amended_witness :
    (buildVals emptyRow negRow).m2 ≠ get_val negRow.m2 ∧
    0 ≤ (buildVals emptyRow negRow).cat_valve :=
  ⟨(m2_subtree_amended emptyRow negRow).2.2.2.2.1 (by norm_num [negRow, emptyRow, get_val]),
   (m2_subtree_amended emptyRow negRow).2.2.2.2.2.2.2.2.2.1⟩

/-- C2 (corrected), counterexample: in the per-date animation loops of
`src/app.py` and `src/my_stock_pool.py`, a date whose trailing window is
flat (rolling standard deviation exactly zero) with ample history is
*skipped* (`if p_std == 0: continue`): on the 272-day flat series the
sampled date 249 has a 250-observation window, zero standard deviation, and
the pipeline emits no record at all for the entity, contradicting the claim
that the entity still produces a record with Z-score 0 for every such
date. -/
theorem zero_std_counterexample :
    ssd (windowPrices flatSeries 249) = 0 ∧
    ¬ ((windowPrices flatSeries 249).length : ℚ) < 252 * (9 / 10) ∧
    (249 : ℤ) ∈ displayDates flatSeries 271 ∧
    processTicker flatSeries 271 = [] := by
  refine ⟨ssd_of_const (windowPrices_const flatSeries_const 249), ?_, by decide, ?_⟩
  · have hlen : (windowPrices flatSeries 249).length = 250 := by with_unfolding_all rfl
    rw [hlen]
    norm_num
  · unfold processTicker
    have h272 : ¬ flatSeries.length < 252 + 20 := by
      have : flatSeries.length = 272 := by with_unfolding_all rfl
      omega
    rw [if_neg h272]
    exact List.filterMap_eq_nil_iff.mpr
      (fun d _ => processDate_none_of_const (windowPrices_const flatSeries_const d))

/-- C2 (corrected), amended claim: in the latest-date radar calculators
(pages 0 and 1) a zero rolling standard deviation yields Z-score `0` and
the ticker still produces its metric record; but in the per-date animation
loops (`src/app.py`, `src/my_stock_pool.py`) a date whose trailing window
has zero rolling standard deviation is silently skipped and produces no
record.  In neither variant does an error propagate. -/
theorem zero_std_amended :
    (∀ curr ma250 : ℚ, radarZScore curr ma250 0 = 0) ∧
    (∀ (prices : List ℚ) (benchMom : ℚ), ¬ prices.length < 250 →
        ∃ r : RadarRec, radarMetrics prices 0 benchMom = some r ∧ r.z = 0) ∧
    (∀ (s : List (ℤ × ℚ)) (d : ℤ), ssd (windowPrices s d) = 0 → processDate s d = none) := by
  refine ⟨?_, ?_, ?_⟩
  · intro curr ma250
    simp [radarZScore]
  · intro prices benchMom h
    unfold radarMetrics
    rw [if_neg h]
    exact ⟨_, rfl, by simp [radarZScore]⟩
  · intro s d hssd
    simp only [processDate]
    split_ifs <;> rfl

/-- Witness for C2's amended claim: a concrete zero-std Z-score and a
concrete skipped flat date. -/
theorem zero_std_amended_witness :
    radarZScore 7 3 0 = 0 ∧ processDate flatSeries 249 = none :=
  ⟨zero_std_amended.1 7 3,
   zero_std_amended.2.2 flatSeries 249
     (ssd_of_const (windowPrices_const flatSeries_const 249))⟩

/-- C3 (corrected), counterexample: the momentum lookback resolution is
numpy `searchsorted` with `side='left'`, which returns the *earliest*
observation at or after `date - offset`, not the latest one before it.  On
a series observed at days 0 and 100, with reference date 50 and the 4-week
offset (target day 22), it resolves to day 100: not the latest available
date `≤ 22` (which is day 0), and strictly later than the reference date 50
— lookahead. -/
theorem lookahead_counterexample :
    resolveLookback gapSeries 50 = some 100 ∧
    ¬ ((100 : ℤ) ≤ 50 - 28) ∧
    ¬ ((100 : ℤ) ≤ 50) ∧
    (0 : ℤ) ∈ gapSeries.map Prod.fst ∧ (0 : ℤ) ≤ 50 - 28 :=
  ⟨by decide, by decide, by decide, by decide, by decide⟩

/-- C3 (corrected), amended claim: on a strictly sorted observation index,
the lookback resolution returns the *earliest* available observation date
at or after `date - offset` (when any observation at or after the target
exists, otherwise it is unresolved and momentum falls back to 0); in
particular it returns a date `≤ date` whenever at least one observation
lies in the window `[date - offset, date]`, but with a reporting gap longer
than the offset it can return a date strictly later than the reference
date. -/
theorem lookback_resolution_amended (s : List (ℤ × ℚ)) (d : ℤ)
    (hs : (s.map Prod.fst).Pairwise (· < ·)) :
    (∀ x : ℤ, resolveLookback s d = some x →
        d - 28 ≤ x ∧ x ∈ s.map Prod.fst ∧ ∀ y ∈ s.map Prod.fst, d - 28 ≤ y → x ≤ y) ∧
    ((∃ y ∈ s.map Prod.fst, d - 28 ≤ y ∧ y ≤ d) →
        ∃ x : ℤ, resolveLookback s d = some x ∧ x ≤ d) := by
  have hkey : ∀ x : ℤ, resolveLookback s d = some x →
      d - 28 ≤ x ∧ x ∈ s.map Prod.fst ∧ ∀ y ∈ s.map Prod.fst, d - 28 ≤ y → x ≤ y := by
    intro x hx
    rw [resolveLookback_eq_dates] at hx
    exact searchsorted_first_ge hs (d - 28) x hx
  refine ⟨hkey, ?_⟩
  rintro ⟨y, hy, hty, hyd⟩
  have hlt : (s.map Prod.fst).countP (fun v => decide (v < d - 28)) <
      (s.map Prod.fst).length := by
    rcases lt_or_eq_of_le (List.countP_le_length _) with h | h
    · exact h
    · exfalso
      have hall := List.countP_eq_length.mp h y hy
      simp only [decide_eq_true_eq] at hall
      linarith
  have hsome : resolveLookback s d =
      some ((s.map Prod.fst)[(s.map Prod.fst).countP (fun v => decide (v < d - 28))]) := by
    rw [resolveLookback_eq_dates]
    exact List.getElem?_eq_getElem hlt
  obtain ⟨-, -, hmin⟩ := hkey _ hsome
  exact ⟨_, hsome, le_trans (hmin y hy hty) hyd⟩

/-- Witness for C3's amended claim: on a concrete sorted series the
resolved lookback date satisfies the at-or-after-target bound. -/
theorem lookback_resolution_amended_witness :
    (40 : ℤ) - 28 ≤ 20 ∧ resolveLookback triSeries 40 = some 20 :=
  ⟨((lookback_resolution_amended triSeries 40 (by decide)).1 20 (by decide)).1, by decide⟩

/-- C6 (corrected), counterexample: the 0.9-window history threshold is
necessary but not sufficient for a record.  The 240-day rising series has,
at the sampled date 235, a 236-observation window — above the threshold
`0.9 * 252 = 226.8`, so the date is eligible in the claim's sense — yet the
pipeline emits no record at all, because the whole entity is discarded by
the separate `len(series) < rolling_window + 20` gate. -/
theorem min_history_counterexample :
    ¬ ((windowPrices shortSeries 235).length : ℚ) < 252 * (9 / 10) ∧
    (235 : ℤ) ∈ displayDates shortSeries 239 ∧
    processTicker shortSeries 239 = [] := by
  refine ⟨?_, by decide, ?_⟩
  · have hlen : (windowPrices shortSeries 235).length = 236 := by with_unfolding_all rfl
    rw [hlen]
    norm_num
  · have h240 : shortSeries.length < 252 + 20 := by
      have : shortSeries.length = 240 := by with_unfolding_all rfl
      omega
    unfold processTicker
    rw [if_pos h240]

/-- C6 (corrected), amended claim: an entity produces no record for a date
unless its trailing window has at least `0.9 * 252` observations (the pair
is silently skipped, no error), and a sampled date yields at most one
record, with no duplicates; but eligibility additionally requires the
entity to have at least `252 + 20` total observations and the date's window
to have nonzero rolling standard deviation — when all of these gates pass,
the entity yields exactly one record for that sampled date. -/
theorem min_history_amended (s : List (ℤ × ℚ)) (now d : ℤ) :
    ((processTicker s now).countP (fun r => r.date == d) ≤ 1) ∧
    (∀ r ∈ processTicker s now,
        ¬ ((windowPrices s r.date).length : ℚ) < 252 * (9 / 10)) ∧
    (¬ s.length < 252 + 20 → d ∈ displayDates s now →
     ¬ ((windowPrices s d).length : ℚ) < 252 * (9 / 10) →
     ssd (windowPrices s d) ≠ 0 →
     (processTicker s now).countP (fun r => r.date == d) = 1) := by
  have hcount : ∀ _ : ¬ s.length < 252 + 20,
      (processTicker s now).countP (fun r => r.date == d) =
        if d ∈ displayDates s now ∧ (processDate s d).isSome then 1 else 0 := by
    intro h
    unfold processTicker
    rw [if_neg h]
    exact countP_filterMap_date (processDate s) (fun x r hr => processDate_date hr)
      (displayDates s now) (displayDates_nodup s now) d
  refine ⟨?_, ?_, ?_⟩
  · by_cases h : s.length < 252 + 20
    · unfold processTicker
      rw [if_pos h]
      simp
    · rw [hcount h]
      split_ifs <;> norm_num
  · intro r hr
    unfold processTicker at hr
    split_ifs at hr with h
    · simp at hr
    · rcases List.mem_filterMap.mp hr with ⟨a, -, hpa⟩
      rw [processDate_date hpa]
      exact (processDate_some hpa).1
  · intro h1 h2 h3 h4
    rw [hcount h1, if_pos]
    refine ⟨h2, ?_⟩
    have hsome : processDate s d =
        some { date := d, price := weeklyLast s d,
               momentum := momentumAt s d (weeklyLast s d) } := by
      simp only [processDate]
      rw [if_neg h3, if_neg h4]
    rw [hsome]
    rfl

/-- Witness for C6's amended claim: on the 272-day rising series the
sampled date 249 passes every gate and yields exactly one record. -/
theorem min_history_amended_witness :
    (processTicker risingSeries 271).countP (fun r => r.date == 249) = 1 := by
  refine (min_history_amended risingSeries 271 249).2.2 ?_ (by decide) ?_ ?_
  · have : risingSeries.length = 272 := by with_unfolding_all rfl
    omega
  · have hlen : (windowPrices risingSeries 249).length = 250 := by with_unfolding_all rfl
    rw [hlen]
    norm_num
  · with_unfolding_all decide

/-- C7 (confirmed): the momentum at a reference date is the percentage
change from the lookback-resolved previous price to the current weekly
price, `((p_now - p_prev) / p_prev) * 100`; whenever the previous price is
zero, or the lookback is unresolved (the resolved index is out of range),
the momentum is `0`.  The last conjunct ties the formula to the record the
pipeline emits.  (Which observation the lookback resolves to is claim C3's
concern.) -/
theorem momentum_formula (s : List (ℤ × ℚ)) (d : ℤ) (pv : ℚ) :
    (∀ pp : ℚ, prevPrice s d = some pp → 0 < pp →
        momentumAt s d (some pv) = some ((pv - pp) / pp * 100)) ∧
    (prevPrice s d = some 0 → momentumAt s d (some pv) = some 0) ∧
    (resolveLookback s d = none → momentumAt s d (some pv) = some 0) ∧
    (∀ r : WeeklyRec, processDate s d = some r →
        r.momentum = momentumAt s d (weeklyLast s d)) := by
  refine ⟨?_, ?_, ?_, ?_⟩
  · intro pp hpp hpos
    simp [momentumAt, hpp, hpos]
  · intro hpp
    simp [momentumAt, hpp]
  · intro hnone
    have hprev : prevPrice s d = none := by
      unfold resolveLookback at hnone
      unfold prevPrice
      rcases h : s[lookbackIdx s d]? with - | p
      · rfl
      · rw [h] at hnone
        simp at hnone
    simp [momentumAt, hprev]
  · intro r hr
    rw [(processDate_some hr).2.2]

/-- Witness for C7: a price that doubles from the resolved 4-week lookback
observation to the reference date has momentum exactly +100. -/
theorem momentum_formula_witness :
    momentumAt doublingSeries 40 (some 200) = some 100 := by
  have h := (momentum_formula doublingSeries 40 200).1 100 (by with_unfolding_all decide)
    (by norm_num)
  rw [h]
  norm_num

/-- C8 (confirmed): the entity-to-category assignment of the portfolio
radar is a strict partition.  `get_category_label` is a single-valued
function resolving overlaps by the fixed priority order C over B over A
(the reversed iteration of the config), an entity in no pool is labelled
`"Other"`, and the ticker list driving the per-date loop is duplicate-free,
so each entity is visited (and its value counted) at most once per date. -/
theorem category_partition (t : String) :
    (t ∈ groupC → get_category_label t = "C") ∧
    (t ∉ groupC → t ∈ groupB → get_category_label t = "B") ∧
    (t ∉ groupC → t ∉ groupB → t ∈ groupA → get_category_label t = "A") ∧
    (t ∉ groupC → t ∉ groupB → t ∉ groupA → get_category_label t = "Other") ∧
    get_unique_tickers.Nodup ∧ (∀ u : String, get_unique_tickers.count u ≤ 1) := by
  have hnodup : get_unique_tickers.Nodup := List.nodup_dedup _
  have hcontains : ∀ (l : List String), t ∈ l → l.contains t = true := by
    intro l hl
    exact List.elem_eq_true_of_mem hl
  have hnc : ∀ (l : List String), t ∉ l → l.contains t = false := by
    intro l hl
    rcases h : l.contains t
    · rfl
    · exact absurd (List.mem_of_elem_eq_true h) hl
  have hrev : PORTFOLIO_CONFIG.reverse =
      [("C (时代之王)", groupC), ("B (核心)", groupB), ("A (防守)", groupA)] := rfl
  refine ⟨?_, ?_, ?_, ?_, hnodup, fun u => List.nodup_iff_count_le_one.mp hnodup u⟩
  · intro hc
    unfold get_category_label
    rw [hrev]
    simp only [List.find?, hcontains _ hc]
    decide
  · intro hc hb
    unfold get_category_label
    rw [hrev]
    simp only [List.find?, hnc _ hc, hcontains _ hb]
    decide
  · intro hc hb ha
    unfold get_category_label
    rw [hrev]
    simp only [List.find?, hnc _ hc, hnc _ hb, hcontains _ ha]
    decide
  · intro hc hb ha
    unfold get_category_label
    rw [hrev]
    simp only [List.find?, hnc _ hc, hnc _ hb, hnc _ ha]

/-- Witness for C8: `LMT` sits in both pool A and pool C and is labelled
`C`; `COST` sits in both A and B and is labelled `B`; `GLD` sits only in A
and is labelled `A`. -/
theorem category_partition_witness :
    get_category_label "LMT" = "C" ∧
    get_category_label "COST" = "B" ∧
    get_category_label "GLD" = "A" :=
  ⟨(category_partition "LMT").1 (by decide),
   (category_partition "COST").2.1 (by decide) (by decide),
   (category_partition "GLD").2.2.1 (by decide) (by decide) (by decide)⟩

/-- C9 (corrected), counterexample: the snapshot computation is not a
function of the input table alone — it reads the wall clock.
`end_date = datetime.now()` fixes the display window
`[now - 365, now]`, so running the identical per-entity computation on the
identical price series at two different wall-clock instants (modelled by
the explicit `now` parameter) yields different outputs: at `now = 271` the
rising series produces records, at `now = 1000` the display filter leaves
no sampled dates and the output is empty. -/
theorem wallclock_counterexample :
    processTicker risingSeries 271 ≠ processTicker risingSeries 1000 := by
  with_unfolding_all decide

/-- C9 (corrected), amended claim: the pipeline is a pure function of the
price series and the wall-clock instant, whose only use of the clock is the
choice of sampled display dates: any two invocations on the same series
that sample the same display dates — in particular any two invocations at
the same instant — produce identical outputs, with no hidden state. -/
theorem pipeline_deterministic_amended (s : List (ℤ × ℚ)) (n₁ n₂ : ℤ)
    (h : displayDates s n₁ = displayDates s n₂) :
    processTicker s n₁ = processTicker s n₂ := by
  unfold processTicker
  rw [h]

/-- Witness for C9's amended claim: clocks one day apart that sample the
same weekly dates give bit-identical outputs. -/
theorem pipeline_deterministic_amended_witness :
    processTicker risingSeries 271 = processTicker risingSeries 270 :=
  pipeline_deterministic_amended risingSeries 271 270 (by decide)

end ValuationRadar
